import Mathlib

/-!
Shallow embedding of the AGI framework's conversation context manager
(`agi/utils/context_manager.py`) and inference engine (`agi/core/inference.py`),
with theorems checking the natural-language specification against the code.

Conventions of the embedding:
* Python mutable objects become immutable Lean structures; a method that
  mutates `self` becomes a function returning the updated structure.
* `collections.deque(maxlen=n)` becomes a `List` with an explicit trim on
  append (`dequeAppend`).
* Python `float` becomes `ℚ` (exact arithmetic stands in for IEEE floats).
* Wall-clock latency (`time.time()` differences) is nondeterministic, so it
  is passed to `generate` as an oracle argument.
* Timestamps (`datetime.now()`) and `print` calls are side effects irrelevant
  to every claim and are omitted.
-/

set_option autoImplicit false

/-- A single conversation turn (`ConversationTurn.__init__`).  The optional
metadata dictionary and the wall-clock timestamp play no role in any claim;
`role` and `content` are the fields the code computes with. -/
structure ConversationTurn where
  role : String
  content : String
deriving DecidableEq, Repr

/-- State of `ContextManager`: constructor arguments plus the mutable fields
(`conversation_history` deque, `context_summary`, and the two counters kept
in the `metadata` dict). The history list is oldest-first, matching deque
order. -/
structure ContextManager where
  max_context_length : Int
  max_turns : Nat
  summarization_threshold : Nat
  conversation_history : List ConversationTurn
  context_summary : String
  total_turns : Nat
  summarization_count : Nat
deriving DecidableEq, Repr

/-- `ContextManager.__init__`: empty deque with `maxlen = max_turns`, empty
summary, zeroed counters. -/
def ContextManager.init (maxContextLength : Int) (maxTurns : Nat)
    (summarizationThreshold : Nat) : ContextManager :=
  { max_context_length := maxContextLength
    max_turns := maxTurns
    summarization_threshold := summarizationThreshold
    conversation_history := []
    context_summary := ""
    total_turns := 0
    summarization_count := 0 }

/-- Appending to a `deque(maxlen=maxlen)`: the new element goes to the right
and, if the deque would exceed `maxlen`, elements are discarded from the
left. -/
def dequeAppend {α : Type} (maxlen : Nat) (xs : List α) (x : α) : List α :=
  let ys := xs ++ [x]
  if maxlen < ys.length then ys.drop (ys.length - maxlen) else ys

/-- Python string slice `s[:n]`: the first `n` characters (structural
recursion over the character list so that it evaluates by kernel
reduction). -/
def strTake (s : String) (n : Nat) : String :=
  String.mk (s.toList.take n)

/-- The excerpt line `f"- {turn.role}: {turn.content[:50]}..."` built by
`_summarize_context` for a long turn. -/
def summaryLine (t : ConversationTurn) : String :=
  let r := t.role
  let c := strTake t.content 50
  s!"- {r}: {c}..."

/-- The first header line `f"Summary of {num_to_summarize} conversation
turns:"` of the digest. -/
def summaryHeader (num : Nat) : String :=
  s!"Summary of {num} conversation turns:"

/-- `ContextManager._summarize_context`: if the buffer has at least
`summarization_threshold` turns, summarize the first half (floor division):
a two-line header followed by one excerpt line per turn whose content
exceeds 50 characters, joined with newlines; this replaces
`context_summary` and bumps `summarization_count`. -/
def ContextManager.summarizeContext (cm : ContextManager) : ContextManager :=
  if cm.conversation_history.length < cm.summarization_threshold then cm
  else
    let num := cm.conversation_history.length / 2
    let turns := cm.conversation_history.take num
    let parts :=
      [summaryHeader num, "Key topics discussed:"]
        ++ (turns.filter (fun t => 50 < t.content.length)).map summaryLine
    { cm with
      context_summary := String.intercalate "\n" parts
      summarization_count := cm.summarization_count + 1 }

/-- `ContextManager.add_turn`: append the turn to the bounded deque, bump
`metadata["total_turns"]`, then summarize if the buffer reached the
threshold. -/
def ContextManager.add_turn (cm : ContextManager) (role content : String) :
    ContextManager :=
  let turn : ConversationTurn := { role := role, content := content }
  let cm' :=
    { cm with
      conversation_history := dequeAppend cm.max_turns cm.conversation_history turn
      total_turns := cm.total_turns + 1 }
  if cm.summarization_threshold ≤ cm'.conversation_history.length then
    cm'.summarizeContext
  else cm'

/-- Python list slice `lst[s:]` (start index only): a nonnegative start drops
that many elements, a negative start keeps the last `-s` elements (clamped). -/
def pySliceFrom {α : Type} (s : Int) (xs : List α) : List α :=
  if 0 ≤ s then xs.drop s.toNat
  else xs.drop ((xs.length : Int) + s).toNat

/-- The rendering `f"{turn.role}: {turn.content}"` of one turn in
`get_context`. -/
def renderTurn (t : ConversationTurn) : String :=
  let r := t.role
  let c := t.content
  s!"{r}: {c}"

/-- The delimited summary block
`f"[Previous Context Summary]\n{self.context_summary}\n"`. -/
def summaryBlock (s : String) : String :=
  s!"[Previous Context Summary]\n{s}\n"

/-- `ContextManager.get_context`: optional delimited summary block, then the
selected turns (`list(history)[-num_turns:]` when `num_turns` is given,
otherwise all) rendered one per line, joined with newlines. -/
def ContextManager.get_context (cm : ContextManager) (numTurns : Option Int)
    (includeSummary : Bool) : String :=
  let base : List String :=
    if includeSummary ∧ cm.context_summary ≠ "" then
      [summaryBlock cm.context_summary]
    else []
  let turns :=
    match numTurns with
    | none => cm.conversation_history
    | some n => pySliceFrom (-n) cm.conversation_history
  String.intercalate "\n" (base ++ turns.map renderTurn)

/-- `ContextManager.clear_history`: empties the deque and the summary (the
counters in `metadata` are not reset). -/
def ContextManager.clear_history (cm : ContextManager) : ContextManager :=
  { cm with conversation_history := [], context_summary := "" }

/-- Python `min(xs, key=f)` followed by `xs.remove(<that element>)` with
identity-based equality: removes the first element achieving the minimal
key. The head is removed exactly when its key is `≤` every later key. -/
def removeFirstMin {α : Type} (f : α → Nat) : List α → List α
  | [] => []
  | x :: xs => if xs.all (fun y => f x ≤ f y) then xs else x :: removeFirstMin f xs

/-- `ContextManager.prune_context`: `"oldest"` pops the leftmost turn of a
non-empty deque, `"least_relevant"` removes the first shortest-content turn
of a non-empty deque, any other strategy does nothing. -/
def ContextManager.prune_context (cm : ContextManager) (strategy : String) :
    ContextManager :=
  if strategy = "oldest" then
    match cm.conversation_history with
    | [] => cm
    | _ :: rest => { cm with conversation_history := rest }
  else if strategy = "least_relevant" then
    match cm.conversation_history with
    | [] => cm
    | _ :: _ =>
      { cm with
        conversation_history :=
          removeFirstMin (fun t => t.content.length) cm.conversation_history }
  else cm

/-- Pair-of-strings view of an `add_turn` call's `(role, content)` arguments. -/
def mkTurn (rc : String × String) : ConversationTurn :=
  { role := rc.1, content := rc.2 }

/-- Run a sequence of `add_turn` calls. -/
def applyTurns (cm : ContextManager) (ts : List (String × String)) :
    ContextManager :=
  ts.foldl (fun c rc => c.add_turn rc.1 rc.2) cm

example :
    (applyTurns (ContextManager.init 4096 2 100) [("u", "a"), ("a", "b"), ("u", "c")]).conversation_history
      = [{ role := "a", content := "b" }, { role := "u", content := "c" }] := by decide

example :
    ((ContextManager.init 4096 2 100).add_turn "u" "hi").get_context none true = "u: hi" := by decide

example :
    (((ContextManager.init 4096 5 100).add_turn "u" "hi").add_turn "a" "yo").get_context (some 0) false
      = "u: hi\na: yo" := by decide

/-! ## Inference engine (`agi/core/inference.py`) -/

/-- `InferenceConfig.__init__` with its default values (floats as `ℚ`). -/
structure InferenceConfig where
  temperature : ℚ := 7/10
  top_p : ℚ := 9/10
  top_k : Int := 50
  max_length : Int := 512
  repetition_penalty : ℚ := 1
  num_return_sequences : Int := 1
  do_sample : Bool := true

/-- The `inference_stats` dictionary. -/
structure InferenceStats where
  total_requests : Nat
  total_tokens_generated : Nat
  average_latency : ℚ
deriving DecidableEq, Repr

/-- The external model's generation capability
(`self.model.generate(prompt, max_length=..., temperature=..., **kwargs)`).
Extra keyword arguments are forwarded opaquely as a key/value list; a raised
exception is an `Except.error`. -/
def ModelFn : Type :=
  String → Int → ℚ → List (String × String) → Except String String

/-- The response-cache key `f"{prompt}_{max_length}_{temperature}"`, computed
from the arguments as passed (before default resolution).  Since neither the
rendering of an `int`/`None` nor of a `float`/`None` contains an underscore,
the f-string is injective in this triple, so the triple models the string
key faithfully. -/
def cacheKeyOf (prompt : String) (maxLength : Option Int)
    (temperature : Option ℚ) : String × Option Int × Option ℚ :=
  (prompt, maxLength, temperature)

/-- Dictionary lookup `cache_key in self._response_cache` /
`self._response_cache[cache_key]` on the assoc-list model of the dict. -/
def lookupCache (cache : List ((String × Option Int × Option ℚ) × String))
    (k : String × Option Int × Option ℚ) : Option String :=
  match cache with
  | [] => none
  | e :: rest => if e.1 = k then some e.2 else lookupCache rest k

/-- Dictionary store `self._response_cache[cache_key] = text`. -/
def insertCache (cache : List ((String × Option Int × Option ℚ) × String))
    (k : String × Option Int × Option ℚ) (v : String) :
    List ((String × Option Int × Option ℚ) × String) :=
  match cache with
  | [] => [(k, v)]
  | e :: rest => if e.1 = k then (k, v) :: rest else e :: insertCache rest k v

/-- State of `InferenceEngine`. -/
structure InferenceEngine where
  model : ModelFn
  config : InferenceConfig
  inference_stats : InferenceStats
  response_cache : List ((String × Option Int × Option ℚ) × String)

/-- `InferenceEngine.__init__`: zeroed statistics, empty cache. -/
def InferenceEngine.init (m : ModelFn) (cfg : InferenceConfig) :
    InferenceEngine :=
  { model := m
    config := cfg
    inference_stats := { total_requests := 0, total_tokens_generated := 0, average_latency := 0 }
    response_cache := [] }

/-- Python `x or d` on an optional int: `None` and `0` are falsy. -/
def pyOrInt (x : Option Int) (d : Int) : Int :=
  match x with
  | none => d
  | some v => if v = 0 then d else v

/-- Python `x or d` on an optional float: `None` and `0.0` are falsy. -/
def pyOrRat (x : Option ℚ) (d : ℚ) : ℚ :=
  match x with
  | none => d
  | some v => if v = 0 then d else v

/-- Helper for `countWords`: counts maximal whitespace-free runs; the flag
records whether the scan is currently inside a word. -/
def countWordsAux : List Char → Bool → Nat
  | [], _ => 0
  | c :: cs, inWord =>
    if c.isWhitespace then countWordsAux cs false
    else (if inWord then 0 else 1) + countWordsAux cs true

/-- `len(text.split())`: Python `str.split()` with no arguments splits on
runs of whitespace and drops empty pieces, so its length is the number of
maximal whitespace-free runs. -/
def countWords (s : String) : Nat :=
  countWordsAux s.toList false

/-- `InferenceEngine._update_stats`: bump the request counter, add the word
count of the generated text, and fold the latency into the running average
via `(old_avg * (n - 1) + latency) / n` with `n` the post-increment count. -/
def InferenceEngine.updateStats (eng : InferenceEngine) (generatedText : String)
    (latency : ℚ) : InferenceEngine :=
  let n := eng.inference_stats.total_requests + 1
  let oldAvg := eng.inference_stats.average_latency
  { eng with
    inference_stats :=
      { total_requests := n
        total_tokens_generated :=
          eng.inference_stats.total_tokens_generated + countWords generatedText
        average_latency := (oldAvg * ((n : ℚ) - 1) + latency) / (n : ℚ) } }

/-- `InferenceEngine.generate`.  Mirrors the source order: compute the cache
key from the raw arguments, return a cached response immediately on a hit,
otherwise resolve defaults with `or`, call the model, and only after a
successful generation update the statistics and (when `use_cache`) store the
response.  The pair's second component is the engine state when the call
returns or raises; an exception propagates with the state untouched because
the code mutates nothing before the model call. -/
def InferenceEngine.generate (eng : InferenceEngine) (prompt : String)
    (maxLength : Option Int) (temperature : Option ℚ) (useCache : Bool)
    (kwargs : List (String × String)) (latency : ℚ) :
    Except String String × InferenceEngine :=
  let key := cacheKeyOf prompt maxLength temperature
  match (if useCache then lookupCache eng.response_cache key else none) with
  | some cached => (Except.ok cached, eng)
  | none =>
    let ml := pyOrInt maxLength eng.config.max_length
    let temp := pyOrRat temperature eng.config.temperature
    match eng.model prompt ml temp kwargs with
    | Except.error e => (Except.error e, eng)
    | Except.ok text =>
      let eng' := eng.updateStats text latency
      let eng'' :=
        if useCache then
          { eng' with response_cache := insertCache eng'.response_cache key text }
        else eng'
      (Except.ok text, eng'')

/-- `InferenceEngine.batch_generate`: `generate` on each prompt in order with
`use_cache` left at its default `True`; the first exception aborts the batch
and propagates.  Latencies come from an oracle indexed by position. -/
def InferenceEngine.batch_generate :
    InferenceEngine → List String → Option Int → Option ℚ →
      List (String × String) → (Nat → ℚ) → Nat →
      Except String (List String) × InferenceEngine
  | eng, [], _, _, _, _, _ => (Except.ok [], eng)
  | eng, p :: ps, ml, t, kwargs, lats, idx =>
    match eng.generate p ml t true kwargs (lats idx) with
    | (Except.error e, eng') => (Except.error e, eng')
    | (Except.ok text, eng') =>
      match eng'.batch_generate ps ml t kwargs lats (idx + 1) with
      | (Except.ok texts, eng'') => (Except.ok (text :: texts), eng'')
      | (Except.error e, eng'') => (Except.error e, eng'')

/-- Fold a list of `(generated_text, latency)` records through
`_update_stats`, as a run of successful non-cached generations does. -/
def recordAll (eng : InferenceEngine) (pairs : List (String × ℚ)) :
    InferenceEngine :=
  pairs.foldl (fun e tl => e.updateStats tl.1 tl.2) eng

example : countWords "a b c" = 3 := by decide
example : countWords "  a   b  " = 2 := by decide

example :
    (InferenceEngine.init (fun _ _ _ _ => Except.ok "two words") {} |>.generate
      "p" none none true [] (1/2)).1 = Except.ok "two words" := rfl

example :
    ((InferenceEngine.init (fun _ _ _ _ => Except.ok "two words") {}).generate
      "p" none none true [] (1/2)).2.inference_stats.total_requests = 1 := by decide

example :
    ((InferenceEngine.init (fun _ _ _ _ => Except.ok "two words") {}).generate
      "p" none none true [] (1/2)).2.inference_stats.total_tokens_generated = 2 := by decide

/-! ## Helper lemmas about the context manager -/

theorem summarizeContext_history (cm : ContextManager) :
    cm.summarizeContext.conversation_history = cm.conversation_history := by
  unfold ContextManager.summarizeContext
  split <;> rfl

theorem summarizeContext_total (cm : ContextManager) :
    cm.summarizeContext.total_turns = cm.total_turns := by
  unfold ContextManager.summarizeContext
  split <;> rfl

theorem summarizeContext_max_turns (cm : ContextManager) :
    cm.summarizeContext.max_turns = cm.max_turns := by
  unfold ContextManager.summarizeContext
  split <;> rfl

theorem summarizeContext_threshold (cm : ContextManager) :
    cm.summarizeContext.summarization_threshold = cm.summarization_threshold := by
  unfold ContextManager.summarizeContext
  split <;> rfl

theorem add_turn_history (cm : ContextManager) (r c : String) :
    (cm.add_turn r c).conversation_history
      = dequeAppend cm.max_turns cm.conversation_history (mkTurn (r, c)) := by
  simp only [ContextManager.add_turn]
  split
  · rw [summarizeContext_history]
    simp [mkTurn]
  · simp [mkTurn]

theorem add_turn_total (cm : ContextManager) (r c : String) :
    (cm.add_turn r c).total_turns = cm.total_turns + 1 := by
  simp only [ContextManager.add_turn]
  split
  · rw [summarizeContext_total]
  · rfl

theorem add_turn_max_turns (cm : ContextManager) (r c : String) :
    (cm.add_turn r c).max_turns = cm.max_turns := by
  simp only [ContextManager.add_turn]
  split
  · rw [summarizeContext_max_turns]
  · rfl

theorem add_turn_threshold (cm : ContextManager) (r c : String) :
    (cm.add_turn r c).summarization_threshold = cm.summarization_threshold := by
  simp only [ContextManager.add_turn]
  split
  · rw [summarizeContext_threshold]
  · rfl

theorem dequeAppend_length {α : Type} (mt : Nat) (xs : List α) (x : α) :
    (dequeAppend mt xs x).length = min (xs.length + 1) mt := by
  simp only [dequeAppend]
  split <;> rename_i h <;>
    simp only [List.length_drop, List.length_append, List.length_singleton,
      List.length_nil, List.length_cons] at h ⊢ <;>
    omega

/-- The bounded deque preserves the "suffix of everything ever appended"
shape: appending to the last `mt` elements of `L` yields the last `mt`
elements of `L ++ [x]`. -/
theorem dequeAppend_drop {α : Type} (mt : Nat) (L : List α) (x : α) :
    dequeAppend mt (L.drop (L.length - mt)) x
      = (L ++ [x]).drop (L.length + 1 - mt) := by
  unfold dequeAppend
  rcases Nat.lt_or_ge L.length mt with h | h
  · have h0 : L.length - mt = 0 := by omega
    have h1 : L.length + 1 - mt = 0 := by omega
    rw [h0, h1, List.drop_zero, List.drop_zero, if_neg]
    simp
    omega
  · have hB : (L.drop (L.length - mt)).length = mt := by
      rw [List.length_drop]
      omega
    rw [if_pos]
    swap
    · rw [List.length_append, hB]
      simp
    · rw [List.length_append, hB]
      simp only [List.length_singleton]
      rw [Nat.add_sub_cancel_left, List.drop_append_eq_append_drop,
        List.drop_append_eq_append_drop, List.drop_drop, hB]
      have e1 : L.length - mt + 1 = L.length + 1 - mt := by omega
      have e2 : 1 - mt = L.length + 1 - mt - L.length := by omega
      rw [e1, e2]

/-- Invariant of a run of `add_turn` calls, generalized over the starting
state: if the history is the capacity-bounded suffix of some list `pre` of
previously appended turns, it stays the capacity-bounded suffix of
`pre ++ new turns`, the total-turns counter advances by the number of calls,
and the configuration fields are untouched. -/
theorem applyTurns_spec (ts : List (String × String)) :
    ∀ (cm : ContextManager) (pre : List ConversationTurn),
      cm.conversation_history = pre.drop (pre.length - cm.max_turns) →
      (applyTurns cm ts).conversation_history
          = (pre ++ ts.map mkTurn).drop ((pre.length + ts.length) - cm.max_turns)
        ∧ (applyTurns cm ts).total_turns = cm.total_turns + ts.length
        ∧ (applyTurns cm ts).max_turns = cm.max_turns := by
  induction ts with
  | nil =>
    intro cm pre hpre
    simpa [applyTurns] using hpre
  | cons hd tl ih =>
    obtain ⟨hr, hc⟩ := hd
    intro cm pre hpre
    have hstep : applyTurns cm ((hr, hc) :: tl) = applyTurns (cm.add_turn hr hc) tl := rfl
    have hh : (cm.add_turn hr hc).conversation_history
        = (pre ++ [mkTurn (hr, hc)]).drop
            ((pre ++ [mkTurn (hr, hc)]).length - (cm.add_turn hr hc).max_turns) := by
      rw [add_turn_history, add_turn_max_turns, hpre, dequeAppend_drop]
      simp
    obtain ⟨h1, h2, h3⟩ := ih (cm.add_turn hr hc) (pre ++ [mkTurn (hr, hc)]) hh
    rw [hstep]
    refine ⟨?_, ?_, ?_⟩
    · rw [h1, add_turn_max_turns]
      have el : (pre ++ [mkTurn (hr, hc)]) ++ List.map mkTurn tl
          = pre ++ List.map mkTurn ((hr, hc) :: tl) := by
        simp
      have en : (pre ++ [mkTurn (hr, hc)]).length + tl.length
          = pre.length + ((hr, hc) :: tl).length := by
        simp
        omega
      rw [el, en]
    · rw [h2, add_turn_total]
      simp only [List.length_cons]
      omega
    · rw [h3, add_turn_max_turns]

/-- Claim C1: for every configuration and every sequence of `add_turn`
calls, the buffer is exactly the most recently added `min(total, max_turns)`
turns oldest-first, its length never exceeds `max_turns`, and the
total-turns counter counts every call (one increment per `add_turn`), so it
dominates the buffer length. -/
theorem buffer_invariant_C1 (mcl : Int) (mt th : Nat)
    (ts : List (String × String)) :
    (applyTurns (ContextManager.init mcl mt th) ts).conversation_history
        = (ts.map mkTurn).drop (ts.length - mt)
      ∧ (applyTurns (ContextManager.init mcl mt th) ts).conversation_history.length
          = min ts.length mt
      ∧ (applyTurns (ContextManager.init mcl mt th) ts).total_turns = ts.length
      ∧ (applyTurns (ContextManager.init mcl mt th) ts).conversation_history.length ≤ mt
      ∧ (applyTurns (ContextManager.init mcl mt th) ts).conversation_history.length
          ≤ (applyTurns (ContextManager.init mcl mt th) ts).total_turns
      ∧ ∀ (cm' : ContextManager) (r c : String),
          (cm'.add_turn r c).total_turns = cm'.total_turns + 1 := by
  set cm := applyTurns (ContextManager.init mcl mt th) ts with hcm'
  have hcm : cm = applyTurns (ContextManager.init mcl mt th) ts := hcm'
  obtain ⟨h1, h2, h3⟩ :=
    applyTurns_spec ts (ContextManager.init mcl mt th) [] (by simp [ContextManager.init])
  have hh : cm.conversation_history = (ts.map mkTurn).drop (ts.length - mt) := by
    rw [hcm, h1]
    simp [ContextManager.init]
  have ht : cm.total_turns = ts.length := by
    rw [hcm, h2]
    simp [ContextManager.init]
  have hlen : cm.conversation_history.length = min ts.length mt := by
    rw [hh, List.length_drop, List.length_map]
    omega
  exact ⟨hh, hlen, ht, by omega, by omega, fun cm' r c => add_turn_total cm' r c⟩

/-! ## Claim C10: a threshold above the capacity disables summarization -/

/-- A user-visible mutation of the conversation store: an `add_turn` call or
a `clear_history` call. -/
inductive CtxOp where
  | add (role content : String)
  | clear

def applyOp (cm : ContextManager) : CtxOp → ContextManager
  | CtxOp.add r c => cm.add_turn r c
  | CtxOp.clear => cm.clear_history

def applyOps (cm : ContextManager) (ops : List CtxOp) : ContextManager :=
  ops.foldl applyOp cm

theorem add_turn_no_trigger (cm : ContextManager) (r c : String)
    (h : (dequeAppend cm.max_turns cm.conversation_history (mkTurn (r, c))).length
        < cm.summarization_threshold) :
    (cm.add_turn r c).context_summary = cm.context_summary
      ∧ (cm.add_turn r c).summarization_count = cm.summarization_count := by
  simp only [mkTurn] at h
  simp only [ContextManager.add_turn]
  rw [if_neg (by omega)]
  exact ⟨rfl, rfl⟩

theorem applyOps_no_summarize (ops : List CtxOp) :
    ∀ (cm : ContextManager),
      cm.max_turns < cm.summarization_threshold →
      cm.conversation_history.length ≤ cm.max_turns →
      cm.summarization_count = 0 →
      cm.context_summary = "" →
      (applyOps cm ops).summarization_count = 0
        ∧ (applyOps cm ops).context_summary = "" := by
  induction ops with
  | nil =>
    intro cm _ _ h3 h4
    exact ⟨h3, h4⟩
  | cons op rest ih =>
    intro cm h1 h2 h3 h4
    have hstep : applyOps cm (op :: rest) = applyOps (applyOp cm op) rest := rfl
    rw [hstep]
    cases op with
    | add r c =>
      have hlen :
          (dequeAppend cm.max_turns cm.conversation_history (mkTurn (r, c))).length
            < cm.summarization_threshold := by
        rw [dequeAppend_length]
        omega
      obtain ⟨hs, hcnt⟩ := add_turn_no_trigger cm r c hlen
      exact ih (cm.add_turn r c)
        (by rw [add_turn_max_turns, add_turn_threshold]; exact h1)
        (by rw [add_turn_history, add_turn_max_turns, dequeAppend_length]; omega)
        (by rw [hcnt]; exact h3)
        (by rw [hs]; exact h4)
    | clear =>
      exact ih cm.clear_history h1 (by simp [ContextManager.clear_history]) h3 rfl

/-- Claim C10: if `summarization_threshold > max_turns`, then under every
sequence of `add_turn` and `clear_history` calls starting from a fresh
store, summarization never occurs: the summarization counter stays `0` and
the summary stays empty. -/
theorem threshold_above_capacity_C10 (mcl : Int) (mt th : Nat) (hth : mt < th)
    (ops : List CtxOp) :
    (applyOps (ContextManager.init mcl mt th) ops).summarization_count = 0
      ∧ (applyOps (ContextManager.init mcl mt th) ops).context_summary = "" :=
  applyOps_no_summarize ops (ContextManager.init mcl mt th) hth
    (Nat.zero_le mt) rfl rfl

/-- Witness for C10 at a concrete configuration (`max_turns = 2`,
`summarization_threshold = 3`) and a concrete call sequence long enough to
wrap the buffer. -/
theorem threshold_above_capacity_C10_witness :
    2 < 3
      ∧ (applyOps (ContextManager.init 4096 2 3)
            [CtxOp.add "u" "aaa", CtxOp.add "a" "bbb", CtxOp.add "u" "ccc",
              CtxOp.clear, CtxOp.add "a" "ddd"]).summarization_count = 0
      ∧ (applyOps (ContextManager.init 4096 2 3)
            [CtxOp.add "u" "aaa", CtxOp.add "a" "bbb", CtxOp.add "u" "ccc",
              CtxOp.clear, CtxOp.add "a" "ddd"]).context_summary = "" :=
  ⟨by decide,
    (threshold_above_capacity_C10 4096 2 3 (by decide)
      [CtxOp.add "u" "aaa", CtxOp.add "a" "bbb", CtxOp.add "u" "ccc",
        CtxOp.clear, CtxOp.add "a" "ddd"]).1,
    (threshold_above_capacity_C10 4096 2 3 (by decide)
      [CtxOp.add "u" "aaa", CtxOp.add "a" "bbb", CtxOp.add "u" "ccc",
        CtxOp.clear, CtxOp.add "a" "ddd"]).2⟩

/-! ## Claim C6: summarization trigger and digest shape -/

theorem summarizeContext_of_triggered (cm : ContextManager)
    (h : cm.summarization_threshold ≤ cm.conversation_history.length) :
    cm.summarizeContext.context_summary
        = String.intercalate "\n"
            ([summaryHeader (cm.conversation_history.length / 2), "Key topics discussed:"]
              ++ ((cm.conversation_history.take (cm.conversation_history.length / 2)).filter
                    (fun t => 50 < t.content.length)).map summaryLine)
      ∧ cm.summarizeContext.summarization_count = cm.summarization_count + 1 := by
  unfold ContextManager.summarizeContext
  rw [if_neg (by omega)]
  exact ⟨rfl, rfl⟩

theorem add_turn_eq_of_triggered (cm : ContextManager) (r c : String)
    (h : cm.summarization_threshold
        ≤ (dequeAppend cm.max_turns cm.conversation_history (mkTurn (r, c))).length) :
    cm.add_turn r c
      = ContextManager.summarizeContext
          { cm with
            conversation_history :=
              dequeAppend cm.max_turns cm.conversation_history (mkTurn (r, c))
            total_turns := cm.total_turns + 1 } := by
  simp only [mkTurn] at h
  simp only [ContextManager.add_turn]
  rw [if_pos h]
  simp [mkTurn]

theorem add_turn_eq_of_not_triggered (cm : ContextManager) (r c : String)
    (h : ¬ cm.summarization_threshold
        ≤ (dequeAppend cm.max_turns cm.conversation_history (mkTurn (r, c))).length) :
    cm.add_turn r c
      = { cm with
          conversation_history :=
            dequeAppend cm.max_turns cm.conversation_history (mkTurn (r, c))
          total_turns := cm.total_turns + 1 } := by
  simp only [mkTurn] at h
  simp only [ContextManager.add_turn]
  rw [if_neg h]
  simp [mkTurn]

/-- Claim C6: whenever `add_turn` leaves the buffer with at least
`summarization_threshold` turns, summarization runs: the summary is
replaced by a digest of the first `⌊|buffer|/2⌋` turns — a header plus one
`- role: first-50-chars...` line for exactly the turns among them whose
content exceeds 50 characters — the summarization counter increments by
one, and no turn is removed; with fewer turns than the threshold, the
summary and the counter are unchanged. -/
theorem summarization_digest_C6 (cm : ContextManager) (r c : String) :
    let B := dequeAppend cm.max_turns cm.conversation_history (mkTurn (r, c))
    let digest := String.intercalate "\n"
      ([summaryHeader (B.length / 2), "Key topics discussed:"]
        ++ ((B.take (B.length / 2)).filter (fun t => 50 < t.content.length)).map summaryLine)
    (cm.add_turn r c).conversation_history = B
      ∧ (cm.add_turn r c).context_summary
          = (if cm.summarization_threshold ≤ B.length then digest
            else cm.context_summary)
      ∧ (cm.add_turn r c).summarization_count
          = (if cm.summarization_threshold ≤ B.length then cm.summarization_count + 1
            else cm.summarization_count) := by
  intro B digest
  by_cases hth : cm.summarization_threshold ≤ B.length
  · rw [add_turn_eq_of_triggered cm r c hth]
    obtain ⟨hs, hcnt⟩ := summarizeContext_of_triggered
      { cm with
        conversation_history := B
        total_turns := cm.total_turns + 1 } hth
    rw [if_pos hth, if_pos hth]
    exact ⟨summarizeContext_history _, hs, hcnt⟩
  · rw [add_turn_eq_of_not_triggered cm r c hth, if_neg hth, if_neg hth]
    exact ⟨rfl, rfl, rfl⟩

/-! ## Claim C7: `get_context` rendering and turn selection -/

/-- A store with a single turn, used to exhibit concrete behavior. -/
def demoCM : ContextManager :=
  (ContextManager.init 4096 50 100).add_turn "u" "hi"

/-- Claim C7 counterexample: with `num_turns = 0` the code renders all turns
(`list(...)[-0:]` is the whole list in Python), not the last `0` turns —
rendering the last `0` turns would produce the empty string, but the call
returns the full single-turn rendering. -/
theorem get_context_zero_C7_counterexample :
    demoCM.get_context (some 0) false = "u: hi"
      ∧ demoCM.get_context (some 0) false
          ≠ String.intercalate "\n"
              ((demoCM.conversation_history.drop
                  (demoCM.conversation_history.length - (0 : Int).toNat)).map renderTurn) := by
  constructor
  · decide
  · decide

/-- Claim C7 (amended): `get_context` returns the delimited summary block
(exactly when `include_summary` is set and the summary is non-empty)
followed by one `role: content` line per selected turn in chronological
order, where the selection is all turns when `num_turns` is omitted and the
last `num_turns` turns for every provided `num_turns ≥ 1`; the result is a
pure function of the store (`num_turns = 0` instead selects all turns,
Python `-0` slicing). -/
theorem get_context_spec_C7 (cm : ContextManager) (includeSummary : Bool) :
    (cm.get_context none includeSummary
        = String.intercalate "\n"
            ((if includeSummary ∧ cm.context_summary ≠ "" then
                [summaryBlock cm.context_summary]
              else [])
              ++ cm.conversation_history.map renderTurn))
      ∧ ∀ (n : Int), 1 ≤ n →
          cm.get_context (some n) includeSummary
            = String.intercalate "\n"
                ((if includeSummary ∧ cm.context_summary ≠ "" then
                    [summaryBlock cm.context_summary]
                  else [])
                  ++ (cm.conversation_history.drop
                        (cm.conversation_history.length - n.toNat)).map renderTurn) := by
  constructor
  · rfl
  · intro n hn
    simp only [ContextManager.get_context, pySliceFrom]
    have hneg : ¬ (0 : Int) ≤ -n := by omega
    have he : ((cm.conversation_history.length : Int) + -n).toNat
        = cm.conversation_history.length - n.toNat := by omega
    rw [if_neg hneg, he]

/-- Witness for C7 (amended) at `num_turns = 1` on the single-turn store. -/
theorem get_context_spec_C7_witness :
    demoCM.get_context (some 1) false = "u: hi" := by
  have h := (get_context_spec_C7 demoCM false).2 1 (by decide)
  rw [h]
  decide

/-! ## Claim C8: pruning strategies -/

/-- Characterization of `min(xs, key=f)` + identity `remove`: it deletes the
element at the first index achieving the minimal key — its key is `≤` every
key in the list and strictly `<` the key of everything before it. -/
theorem removeFirstMin_spec {α : Type} (f : α → Nat) :
    ∀ (xs : List α), xs ≠ [] →
      ∃ (i : Nat) (hi : i < xs.length),
        removeFirstMin f xs = xs.eraseIdx i
          ∧ (∀ (j : Nat) (hj : j < xs.length),
              f (xs.get ⟨i, hi⟩) ≤ f (xs.get ⟨j, hj⟩))
          ∧ (∀ (j : Nat) (hj : j < i),
              f (xs.get ⟨i, hi⟩) < f (xs.get ⟨j, Nat.lt_trans hj hi⟩)) := by
  intro xs
  induction xs with
  | nil => intro h; exact absurd rfl h
  | cons x rest ih =>
    intro _
    by_cases hall : ∀ y ∈ rest, f x ≤ f y
    · have hb : rest.all (fun y => f x ≤ f y) = true := by
        simp only [List.all_eq_true, decide_eq_true_eq]
        exact hall
      refine ⟨0, Nat.succ_pos _, ?_, ?_, ?_⟩
      · simp [removeFirstMin, hb]
      · intro j hj
        cases j with
        | zero => exact Nat.le_refl _
        | succ j =>
          have hjr : j < rest.length := by
            simpa using hj
          exact hall _ (List.get_mem rest j hjr)
      · intro j hj
        exact absurd hj (Nat.not_lt_zero j)
    · have hb : ¬ rest.all (fun y => f x ≤ f y) = true := by
        simp only [List.all_eq_true, decide_eq_true_eq]
        exact hall
      push_neg at hall
      obtain ⟨y, hy, hylt⟩ := hall
      have hrest : rest ≠ [] := by
        rintro rfl
        simp at hy
      obtain ⟨i, hi, heq, hmin, hstrict⟩ := ih hrest
      have h1 : f (rest.get ⟨i, hi⟩) ≤ f y := by
        obtain ⟨⟨jy, hjy⟩, hyeq⟩ := List.mem_iff_get.mp hy
        have := hmin jy hjy
        rw [hyeq] at this
        exact this
      refine ⟨i + 1, Nat.succ_lt_succ hi, ?_, ?_, ?_⟩
      · show removeFirstMin f (x :: rest) = (x :: rest).eraseIdx (i + 1)
        simp only [removeFirstMin, if_neg hb, List.eraseIdx]
        rw [heq]
      · intro j hj
        cases j with
        | zero => exact Nat.le_trans h1 (Nat.le_of_lt hylt)
        | succ j => exact hmin j (by simpa using hj)
      · intro j hj
        cases j with
        | zero => exact Nat.lt_of_le_of_lt h1 hylt
        | succ j => exact hstrict j (Nat.lt_of_succ_lt_succ hj)

/-- Claim C8: `prune("oldest")` removes exactly the earliest turn (a no-op,
not an error, on an empty buffer); `prune("least_relevant")` removes exactly
the first turn of minimal content length (a no-op on an empty buffer); any
other strategy string leaves the store untouched. -/
theorem prune_context_spec_C8 (cm : ContextManager) (s : String) :
    (cm.prune_context "oldest"
        = { cm with conversation_history := cm.conversation_history.drop 1 })
      ∧ (cm.conversation_history = [] → cm.prune_context "least_relevant" = cm)
      ∧ (cm.conversation_history ≠ [] →
          ∃ (i : Nat) (hi : i < cm.conversation_history.length),
            cm.prune_context "least_relevant"
                = { cm with
                    conversation_history := cm.conversation_history.eraseIdx i }
              ∧ (∀ (j : Nat) (hj : j < cm.conversation_history.length),
                  (cm.conversation_history.get ⟨i, hi⟩).content.length
                    ≤ (cm.conversation_history.get ⟨j, hj⟩).content.length)
              ∧ (∀ (j : Nat) (hj : j < i),
                  (cm.conversation_history.get ⟨i, hi⟩).content.length
                    < (cm.conversation_history.get
                        ⟨j, Nat.lt_trans hj hi⟩).content.length))
      ∧ (s ≠ "oldest" → s ≠ "least_relevant" → cm.prune_context s = cm) := by
  obtain ⟨mcl, mt, th, hist, cs, tt, sc⟩ := cm
  refine ⟨?_, ?_, ?_, ?_⟩
  · simp only [ContextManager.prune_context]
    rw [if_pos trivial]
    cases hist with
    | nil => rfl
    | cons t rest => rfl
  · intro hempty
    simp only at hempty
    subst hempty
    simp only [ContextManager.prune_context]
    split <;> rfl
  · intro hne
    simp only at hne
    cases hist with
    | nil => exact absurd rfl hne
    | cons t rest =>
      obtain ⟨i, hi, heq, hmin, hstrict⟩ :=
        removeFirstMin_spec (fun u => u.content.length) (t :: rest) (by simp)
      refine ⟨i, hi, ?_, hmin, hstrict⟩
      simp only [ContextManager.prune_context]
      rw [if_pos trivial]
      rw [heq]
      rw [if_neg (by decide : ¬ ("least_relevant" = "oldest"))]
  · intro h1 h2
    simp only [ContextManager.prune_context]
    rw [if_neg h1, if_neg h2]

/-- A three-turn store whose unique shortest turn sits at index 1. -/
def demoPrune : ContextManager :=
  applyTurns (ContextManager.init 4096 50 100) [("u", "aaa"), ("a", "b"), ("u", "cc")]

/-- Witness for C8: the empty-buffer no-op, the existence part on a concrete
three-turn store, and the unknown-strategy no-op. -/
theorem prune_context_spec_C8_witness :
    ((ContextManager.init 4096 50 100).prune_context "least_relevant"
        = ContextManager.init 4096 50 100)
      ∧ (∃ (i : Nat) (hi : i < demoPrune.conversation_history.length),
          demoPrune.prune_context "least_relevant"
              = { demoPrune with
                  conversation_history := demoPrune.conversation_history.eraseIdx i }
            ∧ (∀ (j : Nat) (hj : j < demoPrune.conversation_history.length),
                (demoPrune.conversation_history.get ⟨i, hi⟩).content.length
                  ≤ (demoPrune.conversation_history.get ⟨j, hj⟩).content.length)
            ∧ (∀ (j : Nat) (hj : j < i),
                (demoPrune.conversation_history.get ⟨i, hi⟩).content.length
                  < (demoPrune.conversation_history.get
                      ⟨j, Nat.lt_trans hj hi⟩).content.length))
      ∧ demoPrune.prune_context "bogus" = demoPrune :=
  ⟨(prune_context_spec_C8 (ContextManager.init 4096 50 100) "bogus").2.1 rfl,
    (prune_context_spec_C8 demoPrune "bogus").2.2.1 (by decide),
    (prune_context_spec_C8 demoPrune "bogus").2.2.2 (by decide) (by decide)⟩

/-! ## Path lemmas for `InferenceEngine.generate` -/

theorem generate_eq_hit (eng : InferenceEngine) (prompt : String)
    (maxLength : Option Int) (temperature : Option ℚ)
    (kwargs : List (String × String)) (lat : ℚ) (v : String)
    (hhit : lookupCache eng.response_cache (cacheKeyOf prompt maxLength temperature)
        = some v) :
    eng.generate prompt maxLength temperature true kwargs lat = (Except.ok v, eng) := by
  simp [InferenceEngine.generate, hhit]

theorem generate_eq_miss_err (eng : InferenceEngine) (prompt : String)
    (maxLength : Option Int) (temperature : Option ℚ) (uc : Bool)
    (kwargs : List (String × String)) (lat : ℚ) (e : String)
    (hmiss : uc = true →
      lookupCache eng.response_cache (cacheKeyOf prompt maxLength temperature) = none)
    (herr : eng.model prompt (pyOrInt maxLength eng.config.max_length)
        (pyOrRat temperature eng.config.temperature) kwargs = Except.error e) :
    eng.generate prompt maxLength temperature uc kwargs lat = (Except.error e, eng) := by
  cases uc with
  | true => simp [InferenceEngine.generate, hmiss rfl, herr]
  | false => simp [InferenceEngine.generate, herr]

theorem generate_eq_miss_ok_cached (eng : InferenceEngine) (prompt : String)
    (maxLength : Option Int) (temperature : Option ℚ)
    (kwargs : List (String × String)) (lat : ℚ) (text : String)
    (hmiss : lookupCache eng.response_cache (cacheKeyOf prompt maxLength temperature)
        = none)
    (hok : eng.model prompt (pyOrInt maxLength eng.config.max_length)
        (pyOrRat temperature eng.config.temperature) kwargs = Except.ok text) :
    eng.generate prompt maxLength temperature true kwargs lat
      = (Except.ok text,
          { eng.updateStats text lat with
            response_cache :=
              insertCache (eng.updateStats text lat).response_cache
                (cacheKeyOf prompt maxLength temperature) text }) := by
  simp [InferenceEngine.generate, hmiss, hok]

theorem generate_fst_miss_ok (eng : InferenceEngine) (prompt : String)
    (maxLength : Option Int) (temperature : Option ℚ) (uc : Bool)
    (kwargs : List (String × String)) (lat : ℚ) (text : String)
    (hmiss : uc = true →
      lookupCache eng.response_cache (cacheKeyOf prompt maxLength temperature) = none)
    (hok : eng.model prompt (pyOrInt maxLength eng.config.max_length)
        (pyOrRat temperature eng.config.temperature) kwargs = Except.ok text) :
    (eng.generate prompt maxLength temperature uc kwargs lat).1 = Except.ok text := by
  cases uc with
  | true => simp [InferenceEngine.generate, hmiss rfl, hok]
  | false => simp [InferenceEngine.generate, hok]

theorem lookupCache_insertCache_self
    (cache : List ((String × Option Int × Option ℚ) × String))
    (k : String × Option Int × Option ℚ) (v : String) :
    lookupCache (insertCache cache k v) k = some v := by
  induction cache with
  | nil => simp [insertCache, lookupCache]
  | cons e rest ih =>
    by_cases h : e.1 = k
    · simp [insertCache, lookupCache, h]
    · simp [insertCache, lookupCache, h, ih]

/-! ## Claim C2: failed generations propagate and mutate nothing -/

/-- Claim C2: when the external model raises, the error propagates unchanged
out of `generate` (and out of `batch_generate` for the failing element) and
the engine — response cache and all three statistics — is exactly as it was
before the call, because the code mutates nothing before the model call. -/
theorem generate_error_frame_C2 (eng : InferenceEngine) (prompt : String)
    (maxLength : Option Int) (temperature : Option ℚ) (useCache : Bool)
    (kwargs : List (String × String)) (latency : ℚ) (e : String)
    (hmiss : useCache = true →
      lookupCache eng.response_cache (cacheKeyOf prompt maxLength temperature) = none)
    (herr : eng.model prompt (pyOrInt maxLength eng.config.max_length)
        (pyOrRat temperature eng.config.temperature) kwargs = Except.error e) :
    eng.generate prompt maxLength temperature useCache kwargs latency
        = (Except.error e, eng)
      ∧ (lookupCache eng.response_cache (cacheKeyOf prompt maxLength temperature)
            = none →
          ∀ (ps : List String) (lats : Nat → ℚ) (idx : Nat),
            eng.batch_generate (prompt :: ps) maxLength temperature kwargs lats idx
              = (Except.error e, eng)) := by
  refine ⟨generate_eq_miss_err eng prompt maxLength temperature useCache kwargs
    latency e hmiss herr, ?_⟩
  intro hnone ps lats idx
  simp only [InferenceEngine.batch_generate]
  rw [generate_eq_miss_err eng prompt maxLength temperature true kwargs
    (lats idx) e (fun _ => hnone) herr]

/-- The failing model and an engine built on it, for the C2 witness. -/
def failModel : ModelFn := fun _ _ _ _ => Except.error "boom"

def failEng : InferenceEngine := InferenceEngine.init failModel {}

/-- Witness for C2: the model always raises `"boom"`; a fresh-engine call
returns exactly that error with the engine unchanged, and so does a
one-element batch. -/
theorem generate_error_frame_C2_witness :
    failEng.generate "hi" none none true [] 0 = (Except.error "boom", failEng)
      ∧ failEng.batch_generate ["hi"] none none [] (fun _ => 0) 0
          = (Except.error "boom", failEng) := by
  have h := generate_error_frame_C2 failEng "hi" none none true [] 0 "boom"
    (fun _ => rfl) rfl
  exact ⟨h.1, h.2 rfl [] (fun _ => 0) 0⟩

/-! ## Claim C4: cache hits bypass the model and the statistics -/

/-- Claim C4: a `generate` call with `use_cache = True` whose key is in the
response cache returns the cached text and leaves the engine — statistics
included — unchanged; the same holds after swapping in an arbitrary model,
so the external model is never consulted. -/
theorem cache_hit_frame_C4 (eng : InferenceEngine) (prompt : String)
    (maxLength : Option Int) (temperature : Option ℚ)
    (kwargs : List (String × String)) (latency : ℚ) (v : String)
    (hhit : lookupCache eng.response_cache (cacheKeyOf prompt maxLength temperature)
        = some v) :
    eng.generate prompt maxLength temperature true kwargs latency
        = (Except.ok v, eng)
      ∧ ∀ (m : ModelFn),
          ({ eng with model := m }).generate prompt maxLength temperature true
              kwargs latency
            = (Except.ok v, { eng with model := m }) :=
  ⟨generate_eq_hit eng prompt maxLength temperature kwargs latency v hhit,
    fun m =>
      generate_eq_hit { eng with model := m } prompt maxLength temperature
        kwargs latency v hhit⟩

/-- An engine whose cache is pre-populated, for the C4 witness. -/
def cachedEng : InferenceEngine :=
  { model := failModel
    config := {}
    inference_stats := { total_requests := 0, total_tokens_generated := 0, average_latency := 0 }
    response_cache := [(("p", none, none), "hello")] }

/-- Witness for C4: the pre-populated engine serves `"hello"` from cache and
is returned unchanged, even though its model always raises. -/
theorem cache_hit_frame_C4_witness :
    cachedEng.generate "p" none none true [] 0 = (Except.ok "hello", cachedEng) :=
  (cache_hit_frame_C4 cachedEng "p" none none [] 0 "hello" (by decide)).1

/-! ## Claim C3: the cache key is built from the raw arguments -/

/-- The constant model and fresh engine used to exhibit the C3 behavior. -/
def okModel : ModelFn := fun _ _ _ _ => Except.ok "out"

def engC3 : InferenceEngine := InferenceEngine.init okModel {}

/-- Claim C3 counterexample: with the default configuration
(`max_length = 512`, `temperature = 0.7`), a call omitting both options and
a second call passing exactly those defaults do NOT share a cache entry:
the first call stores under key `(prompt, None, None)`, and the second call
misses — it invokes the model again, driving `total_requests` to 2, whereas
being served from the first call's entry would have left it at 1. -/
theorem cache_key_raw_C3_counterexample :
    lookupCache (engC3.generate "p" none none true [] 0).2.response_cache
        (cacheKeyOf "p" none none) = some "out"
      ∧ ((engC3.generate "p" none none true [] 0).2.generate
            "p" (some 512) (some (7/10)) true [] 0).2.inference_stats.total_requests
          = 2 := by
  constructor
  · decide
  · decide

/-- Claim C3 (amended): the cache key is a deterministic composite of the
prompt and the raw (as-passed) `max_length`/`temperature` arguments — not
the default-resolved values — and of nothing else: after a successful
`use_cache` call, any further call with the same prompt and the same raw
arguments, regardless of extra keyword parameters or latency, is served
from the cache and leaves the engine unchanged. -/
theorem cache_key_raw_spec_C3 (eng : InferenceEngine) (prompt : String)
    (maxLength : Option Int) (temperature : Option ℚ)
    (kwargs kwargs' : List (String × String)) (lat lat' : ℚ)
    (text : String) (eng' : InferenceEngine)
    (h : eng.generate prompt maxLength temperature true kwargs lat
        = (Except.ok text, eng')) :
    eng'.generate prompt maxLength temperature true kwargs' lat'
      = (Except.ok text, eng') := by
  have hlook : lookupCache eng'.response_cache (cacheKeyOf prompt maxLength temperature)
      = some text := by
    cases hcase : lookupCache eng.response_cache (cacheKeyOf prompt maxLength temperature) with
    | some v =>
      rw [generate_eq_hit eng prompt maxLength temperature kwargs lat v hcase] at h
      injection h with ha hb
      injection ha with hv
      subst hv
      subst hb
      exact hcase
    | none =>
      cases hm : eng.model prompt (pyOrInt maxLength eng.config.max_length)
          (pyOrRat temperature eng.config.temperature) kwargs with
      | error e =>
        rw [generate_eq_miss_err eng prompt maxLength temperature true kwargs lat e
          (fun _ => hcase) hm] at h
        injection h with ha hb
        exact absurd ha (by simp)
      | ok t0 =>
        rw [generate_eq_miss_ok_cached eng prompt maxLength temperature kwargs lat t0
          hcase hm] at h
        injection h with ha hb
        injection ha with ht0
        subst ht0
        rw [← hb]
        exact lookupCache_insertCache_self _ _ _
  exact generate_eq_hit eng' prompt maxLength temperature kwargs' lat' text hlook

/-- The engine state after the first (cache-missing) call of the C3
witness. -/
def engC3after : InferenceEngine := (engC3.generate "p" none none true [] 0).2

/-- Witness for C3 (amended): repeating the call with identical raw
arguments (both omitted) but a different latency is served from the cache
and leaves the engine unchanged. -/
theorem cache_key_raw_spec_C3_witness :
    engC3after.generate "p" none none true [] 1 = (Except.ok "out", engC3after) :=
  cache_key_raw_spec_C3 engC3 "p" none none [] [] 0 1 "out" engC3after rfl

/-! ## Claim C5: statistics counters and the running mean -/

theorem updateStats_fields (eng : InferenceEngine) (text : String) (lat : ℚ) :
    (eng.updateStats text lat).inference_stats.total_requests
        = eng.inference_stats.total_requests + 1
      ∧ (eng.updateStats text lat).inference_stats.total_tokens_generated
        = eng.inference_stats.total_tokens_generated + countWords text
      ∧ (eng.updateStats text lat).inference_stats.average_latency
        = (eng.inference_stats.average_latency
              * (((eng.inference_stats.total_requests + 1 : Nat) : ℚ) - 1) + lat)
            / ((eng.inference_stats.total_requests + 1 : Nat) : ℚ) :=
  ⟨rfl, rfl, rfl⟩

theorem recordAll_stats (pairs : List (String × ℚ)) :
    ∀ (eng : InferenceEngine),
      (eng.inference_stats.total_requests = 0 →
        eng.inference_stats.average_latency = 0) →
      (recordAll eng pairs).inference_stats.total_requests
          = eng.inference_stats.total_requests + pairs.length
        ∧ (recordAll eng pairs).inference_stats.total_tokens_generated
          = eng.inference_stats.total_tokens_generated
              + (pairs.map (fun tl => countWords tl.1)).sum
        ∧ (recordAll eng pairs).inference_stats.average_latency
          = (eng.inference_stats.average_latency
                * (eng.inference_stats.total_requests : ℚ)
              + (pairs.map (fun tl => tl.2)).sum)
            / ((eng.inference_stats.total_requests : ℚ) + (pairs.length : ℚ)) := by
  induction pairs with
  | nil =>
    intro eng h0
    refine ⟨by simp [recordAll], by simp [recordAll], ?_⟩
    simp only [recordAll, List.foldl, List.map_nil, List.sum_nil, List.length_nil]
    rcases Nat.eq_zero_or_pos eng.inference_stats.total_requests with hz | hp
    · rw [hz, h0 hz]
      simp
    · have hn : ((eng.inference_stats.total_requests : ℚ)) ≠ 0 := by
        exact_mod_cast Nat.pos_iff_ne_zero.mp hp
      push_cast
      rw [add_zero, add_zero, mul_div_cancel_right₀ _ hn]
  | cons hd tl ih =>
    intro eng h0
    have hstep : recordAll eng (hd :: tl) = recordAll (eng.updateStats hd.1 hd.2) tl := rfl
    rw [hstep]
    obtain ⟨u1, u2, u3⟩ := updateStats_fields eng hd.1 hd.2
    obtain ⟨i1, i2, i3⟩ := ih (eng.updateStats hd.1 hd.2)
      (by rw [u1]; omega)
    refine ⟨?_, ?_, ?_⟩
    · rw [i1, u1]
      simp only [List.length_cons]
      omega
    · rw [i2, u2]
      simp only [List.map_cons, List.sum_cons]
      omega
    · rw [i3, u3, u1]
      have hn1 : ((eng.inference_stats.total_requests : ℚ) + 1) ≠ 0 := by positivity
      simp only [List.map_cons, List.sum_cons, List.length_cons]
      push_cast
      rw [add_sub_cancel_right, div_mul_cancel₀ _ hn1]
      ring_nf

/-- Claim C5: after any run of `n` statistics-recording operations with
texts `t_i` and latencies `l_i`, starting from a fresh engine,
`total_requests = n`, `total_tokens_generated = Σ wordcount(t_i)`, and the
incrementally maintained `average_latency` equals the full arithmetic mean
`(Σ l_i) / n` — the incremental update is equivalent to recomputation; in
particular for texts of word counts `[3, 5, 2]`, `total_requests = 3` and
`total_tokens_generated = 10`. -/
theorem stats_running_mean_C5 (m : ModelFn) (cfg : InferenceConfig)
    (pairs : List (String × ℚ)) :
    let eng := recordAll (InferenceEngine.init m cfg) pairs
    eng.inference_stats.total_requests = pairs.length
      ∧ eng.inference_stats.total_tokens_generated
          = (pairs.map (fun tl => countWords tl.1)).sum
      ∧ eng.inference_stats.average_latency
          = (pairs.map (fun tl => tl.2)).sum / (pairs.length : ℚ)
      ∧ ∀ (l1 l2 l3 : ℚ),
          (recordAll (InferenceEngine.init m cfg)
              [("a b c", l1), ("a b c d e", l2), ("a b", l3)]).inference_stats.total_requests
              = 3
            ∧ (recordAll (InferenceEngine.init m cfg)
                [("a b c", l1), ("a b c d e", l2),
                  ("a b", l3)]).inference_stats.total_tokens_generated = 10 := by
  intro eng
  have hcm : eng = recordAll (InferenceEngine.init m cfg) pairs := rfl
  obtain ⟨h1, h2, h3⟩ := recordAll_stats pairs (InferenceEngine.init m cfg) (fun _ => rfl)
  refine ⟨?_, ?_, ?_, ?_⟩
  · rw [hcm, h1]
    simp [InferenceEngine.init]
  · rw [hcm, h2]
    simp [InferenceEngine.init]
  · rw [hcm, h3]
    norm_num [InferenceEngine.init]
  · intro l1 l2 l3
    obtain ⟨g1, g2, _⟩ := recordAll_stats
      [("a b c", l1), ("a b c d e", l2), ("a b", l3)]
      (InferenceEngine.init m cfg) (fun _ => rfl)
    have c1 : countWords "a b c" = 3 := by decide
    have c2 : countWords "a b c d e" = 5 := by decide
    have c3 : countWords "a b" = 2 := by decide
    constructor
    · rw [g1]
      simp [InferenceEngine.init]
    · rw [g2]
      simp [InferenceEngine.init, c1, c2, c3]

/-! ## Claim C9: default resolution uses Python `or` (falsy zero) -/

/-- The probing model used to exhibit which values the model receives. -/
def probeModel : ModelFn := fun _ ml t _ =>
  Except.ok (if ml = 0 ∨ t = 0 then "got zero" else "resolved")

def engC9 : InferenceEngine :=
  InferenceEngine.init probeModel { temperature := 1 }

/-- Claim C9 counterexample: with configuration defaults
`max_length = 512`, `temperature = 1`, a call explicitly passing
`max_length = 0` and `temperature = 0` does NOT invoke the model with the
provided values: Python `x or default` treats `0`/`0.0` as falsy, so the
model receives the defaults and answers `"resolved"`, not `"got zero"`. -/
theorem zero_args_C9_counterexample :
    (engC9.generate "p" (some 0) (some 0) false [] 0).1 = Except.ok "resolved"
      ∧ (Except.ok "resolved" : Except String String) ≠ Except.ok "got zero" := by
  constructor
  · rfl
  · simp

/-- Claim C9 (amended): `generate` resolves `max_length`/`temperature` with
Python `or`, so the configured defaults are substituted when a parameter is
omitted or when the provided value is zero; any provided nonzero value
reaches the model unchanged.  Stated over an arbitrary value observer
`enc`, which exposes exactly the arguments the model is invoked with. -/
theorem default_resolution_C9
    (enc : String → Int → ℚ → List (String × String) → String)
    (cfg : InferenceConfig) (stats : InferenceStats)
    (cache : List ((String × Option Int × Option ℚ) × String))
    (prompt : String) (v : Int) (w : ℚ) (useCache : Bool)
    (kwargs : List (String × String)) (lat : ℚ)
    (hv : v ≠ 0) (hw : w ≠ 0)
    (h1 : useCache = true →
      lookupCache cache (cacheKeyOf prompt (some v) (some w)) = none)
    (h2 : useCache = true → lookupCache cache (cacheKeyOf prompt none none) = none)
    (h3 : useCache = true →
      lookupCache cache (cacheKeyOf prompt (some 0) (some 0)) = none) :
    let eng : InferenceEngine :=
      { model := fun p a b k => Except.ok (enc p a b k)
        config := cfg
        inference_stats := stats
        response_cache := cache }
    ((eng.generate prompt (some v) (some w) useCache kwargs lat).1
        = Except.ok (enc prompt v w kwargs))
      ∧ ((eng.generate prompt none none useCache kwargs lat).1
          = Except.ok (enc prompt cfg.max_length cfg.temperature kwargs))
      ∧ ((eng.generate prompt (some 0) (some 0) useCache kwargs lat).1
          = Except.ok (enc prompt cfg.max_length cfg.temperature kwargs)) := by
  intro eng
  refine ⟨?_, ?_, ?_⟩
  · refine generate_fst_miss_ok eng prompt (some v) (some w) useCache kwargs lat
      (enc prompt v w kwargs) h1 ?_
    have e1 : pyOrInt (some v) eng.config.max_length = v := by simp [pyOrInt, hv]
    have e2 : pyOrRat (some w) eng.config.temperature = w := by simp [pyOrRat, hw]
    rw [e1, e2]
  · exact generate_fst_miss_ok eng prompt none none useCache kwargs lat
      (enc prompt cfg.max_length cfg.temperature kwargs) h2 rfl
  · refine generate_fst_miss_ok eng prompt (some 0) (some 0) useCache kwargs lat
      (enc prompt cfg.max_length cfg.temperature kwargs) h3 ?_
    have e1 : pyOrInt (some 0) eng.config.max_length = eng.config.max_length := by
      simp [pyOrInt]
    have e2 : pyOrRat (some 0) eng.config.temperature = eng.config.temperature := by
      simp [pyOrRat]
    rw [e1, e2]

/-- The observer and engine used for the C9 witness. -/
def encW : String → Int → ℚ → List (String × String) → String :=
  fun _ a b _ => if a = 0 ∨ b = 0 then "zero" else "nonzero"

def engW : InferenceEngine :=
  { model := fun p a b k => Except.ok (encW p a b k)
    config := { temperature := 1 }
    inference_stats := { total_requests := 0, total_tokens_generated := 0, average_latency := 0 }
    response_cache := [] }

/-- Witness for C9 (amended): the nonzero values `7` and `1` reach the model
unchanged; with both parameters omitted the model receives the configured
defaults (`512` and `1`), both observed as `"nonzero"`. -/
theorem default_resolution_C9_witness :
    ((engW.generate "p" (some 7) (some 1) false [] 0).1
        = Except.ok (encW "p" 7 1 []))
      ∧ ((engW.generate "p" none none false [] 0).1 = Except.ok (encW "p" 512 1 []))
      ∧ encW "p" 7 1 [] = "nonzero"
      ∧ encW "p" 512 1 [] = "nonzero" := by
  have h := default_resolution_C9 encW { temperature := 1 }
    { total_requests := 0, total_tokens_generated := 0, average_latency := 0 } []
    "p" 7 1 false [] 0 (by decide) (by decide)
    (fun hc => absurd hc (by decide)) (fun hc => absurd hc (by decide))
    (fun hc => absurd hc (by decide))
  exact ⟨h.1, h.2.1, by decide, by decide⟩
